import Mathlib

/-!
Verification of the zerotrace repository's specification against its source.

The repository has two Go source files: the HTTP/WebSocket handler layer
(`src/unnamed/part_000`) and a standalone latency test server
(`src/cmd/test-server/main.go`).  The 0trace probing engine itself
(`newZeroTrace` / `Run`, the probe registry and the session state machine)
is not among the source files; where a claim depends on it, the engine is
modelled from the specification (each such definition's doc comment starts
with `Modelled from the spec:`).  Everything else is translated directly
from the Go source.
-/

/- ----------------------------------------------------------------- -/
/- UUID validation and the /trace handler (src/unnamed/part_000)     -/
/- ----------------------------------------------------------------- -/

/-- Hexadecimal digit test, as used by canonical UUID syntax. -/
def isHexDigit (c : Char) : Bool :=
  c.isDigit || ('a' ≤ c && c ≤ 'f') || ('A' ≤ c && c ≤ 'F')

/-- Character admissible at position `i` of a canonical UUID string:
hyphens at positions 8, 13, 18 and 23, hex digits elsewhere. -/
def uuidCharOk (i : Nat) (c : Char) : Bool :=
  if i = 8 || i = 13 || i = 18 || i = 23 then c = '-' else isHexDigit c

/-- Modelled from the spec: `isValidUUID` is called by the handlers in
`src/unnamed/part_000` but its body is not under src/.  The spec says the
session identifier is "validated by the caller as a well-formed UUID", so
this models the canonical well-formed-UUID check: 36 characters in the
8-4-4-4-12 hyphenated hexadecimal layout. -/
def isValidUUID (s : String) : Bool :=
  s.data.length = 36 && s.data.enum.all fun p => uuidCharOk p.1 p.2

/-- Modelled from the spec: `checkHTTPParams` is called first by every
handler in `src/unnamed/part_000` but its body is not under src/.  Per the
spec the HTTP glue routes by URL path and serves GET requests; this models
the path/method gate (it receives only the response writer, the request
and the expected path, so it does not inspect the query string).  Returns
`true` when the handler must return early. -/
def checkHTTPParams (reqPath reqMethod expectedPath : String) : Bool :=
  reqPath != expectedPath || reqMethod != "GET"

/-- One parsed query string: a list of key/values pairs as produced by Go's
`r.URL.Query()` (a map, so keys are distinct and each value list is
nonempty; we model a value list by its elements, reading `v[0]` as
`headD ""`). -/
abbrev QueryMap := List (String × List String)

/-- The uuid-extraction loop of `traceHandler` (part_000 lines 95-103):
`var uuid string` starts empty; for each query entry, if the key is
`"uuid"` and `isValidUUID(v[0])` holds the loop records `v[0]`, otherwise
the handler writes "Invalid UUID" and returns (`none`).  If the query map
is empty the loop body never runs and the initial empty string survives. -/
def traceUuidLoop : QueryMap → String → Option String
  | [], u => some u
  | (k, vs) :: rest, _ =>
    if k = "uuid" && isValidUUID (vs.headD "") then
      traceUuidLoop rest (vs.headD "")
    else
      none

/-- Result of running `traceHandler` on one request. -/
inductive TraceHandlerResult where
  | earlyReturn
  | invalidUuidError
  | upgradeError
  | runTrace (sessionID : String)
deriving DecidableEq, Repr

/-- `traceHandler` (part_000 lines 91-121) up to the `newZeroTrace` call:
the `checkHTTPParams` gate, the uuid loop, then the WebSocket upgrade
(whose success is an input); on success `newZeroTrace(ifaceName, myConn,
uuid)` is reached with the loop's uuid. -/
def traceHandler (reqPath reqMethod : String) (query : QueryMap)
    (upgradeOk : Bool) : TraceHandlerResult :=
  if checkHTTPParams reqPath reqMethod "/trace" then .earlyReturn
  else
    match traceUuidLoop query "" with
    | none => .invalidUuidError
    | some u => if upgradeOk then .runTrace u else .upgradeError

/- ----------------------------------------------------------------- -/
/- pingTcp and the TCP sampling loop (src/cmd/test-server/main.go)   -/
/- ----------------------------------------------------------------- -/

/-- Go's `strings.Contains s sub`. -/
def goContains (s sub : String) : Bool :=
  decide (sub.data <:+: s.data)

/-- A record written by `pingTcp` to `ErrLogger`: either the JSON-marshalled
`tcpProbeResult{dst, seq, t}` (marshalling of this struct cannot fail) or
the "connection failed with" line. -/
inductive TcpLogRecord where
  | probeResult (dst : String) (seq : Nat) (timeMs : Nat)
  | connFailed (dst : String) (errMsg : String)
deriving DecidableEq, Repr

/-- What one `pingTcp` call returns and does. -/
structure PingTcpOut where
  ret : Nat
  logs : List TcpLogRecord
  closedConn : Bool
deriving DecidableEq, Repr

/-- `pingTcp` (main.go lines 129-152).  Inputs are the dial's outcome
(`none` = no error, `some e` = error with message `e`) and the elapsed
dial time in ms (computed from `endTime.Sub(startTime)` regardless of the
outcome).  When the dial succeeds, or fails with an error containing
"connection refused", the elapsed time is logged as a `tcpProbeResult` and
returned; the connection is closed only in the no-error case.  Any other
failure logs the error and returns 0. -/
def pingTcp (dst : String) (seq : Nat) (dialErr : Option String)
    (elapsed : Nat) : PingTcpOut :=
  match dialErr with
  | none => ⟨elapsed, [.probeResult dst seq elapsed], true⟩
  | some e =>
    if goContains e "connection refused" then
      ⟨elapsed, [.probeResult dst seq elapsed], false⟩
    else
      ⟨0, [.connFailed dst e], false⟩

/-- `const TCPCounter = 5` (main.go line 26). -/
def TCPCounter : Nat := 5

/-- The inner probe loop of `pingHandler` for one port (main.go lines
191-198): `seqNumber` is incremented before each probe, and each
`pingTcp` return value is appended to `tResult`. -/
def tcpSample (dst : String) (seq0 : Nat) (dialErr : Nat → Option String)
    (elapsed : Nat → Nat) : List Nat :=
  (List.range TCPCounter).map fun x =>
    (pingTcp dst (seq0 + x + 1) (dialErr x) (elapsed x)).ret

/-- `stats.Min` as used by `getStats` (main.go lines 119-126): the minimum
of the sample (the library errors on an empty sample; `getStats` ignores
the error, leaving 0). -/
def getStatsMin : List Nat → Nat
  | [] => 0
  | h :: t => t.foldl min h

/-- The per-port `tcpResult` fields referenced by the claims (main.go lines
60-67 and 200-201): the raw sample and its minimum.  The remaining
statistics (avg, max, stddev) are computed from the same `tResult` sample
by `getStats`. -/
structure TcpResultRec where
  Destination : String
  TimesInms : List Nat
  MinRtt : Nat
deriving DecidableEq, Repr

/-- Assembly of one port's `tcpResult` (main.go lines 200-201). -/
def mkTcpResult (dst : String) (seq0 : Nat) (dialErr : Nat → Option String)
    (elapsed : Nat → Nat) : TcpResultRec :=
  let sample := tcpSample dst seq0 dialErr elapsed
  ⟨dst, sample, getStatsMin sample⟩

/- ----------------------------------------------------------------- -/
/- The WebSocket echo handlers                                       -/
/- ----------------------------------------------------------------- -/

/-- A decoded JSON value as far as the echo handlers look at one: they only
ever compare map entries against strings, so strings are kept and every
other shape is `other`. -/
inductive JVal where
  | str (s : String)
  | other
deriving DecidableEq, Repr

/-- The generic map produced by `json.Unmarshal` into
`map[string]interface{}`. -/
abbrev JObj := List (String × JVal)

/-- Go map lookup `wsData[k]` (`none` models the `nil` interface value for
a missing key). -/
def jLookup (k : String) (o : JObj) : Option JVal :=
  (o.find? fun p => p.1 == k).map fun p => p.2

/-- What the echo loop does with one message. -/
inductive EchoAction where
  | stop
  | echo (mt : Nat) (message : String)
deriving DecidableEq, Repr

/-- One iteration of the loop body of the echo handlers: the action taken
and whether `message` was written to the log. -/
structure EchoStepOut where
  action : EchoAction
  logged : Bool
deriving DecidableEq, Repr

/-- One iteration of `echoHandler` in `src/unnamed/part_000` (lines
137-162).  Input is the read message (`mt`, `message`) and the result of
`json.Unmarshal` on its payload (`none` = unmarshal error, which breaks
the loop).  On a parsed message: it is logged only when `wsData["type"]`
is not the string `"ws-latency"` and `wsData["UUID"]` is a string passing
`isValidUUID`; then the very same `(mt, message)` is written back. -/
def echoStepTrace (mt : Nat) (message : String) (parsed : Option JObj) :
    EchoStepOut :=
  match parsed with
  | none => ⟨.stop, false⟩
  | some obj =>
    let shouldLog :=
      jLookup "type" obj != some (.str "ws-latency") &&
        (match jLookup "UUID" obj with
          | some (.str u) => isValidUUID u
          | _ => false)
    ⟨.echo mt message, shouldLog⟩

/-- One iteration of `echoHandler` in `src/cmd/test-server/main.go` (lines
98-116).  The `json.Unmarshal` error is ignored (on error `wsData` stays
the nil map, on which every lookup misses); the message is logged unless
`wsData["type"]` is the string `"ws-latency"`; then the very same
`(mt, message)` is written back. -/
def echoStepMain (mt : Nat) (message : String) (parsed : Option JObj) :
    EchoStepOut :=
  let obj := parsed.getD []
  let shouldLog := jLookup "type" obj != some (.str "ws-latency")
  ⟨.echo mt message, shouldLog⟩

/-- The read/step/write loop of `echoHandler` in part_000: messages are
consumed in order; each is echoed (written back) before the next read, and
the loop stops at the first step whose action is `stop`.  Returns the
sequence of written messages. -/
def echoLoopTrace : List (Nat × String × Option JObj) → List (Nat × String)
  | [] => []
  | (mt, msg, parsed) :: rest =>
    match (echoStepTrace mt msg parsed).action with
    | .stop => []
    | .echo m s => (m, s) :: echoLoopTrace rest

/-- The read/step/write loop of `echoHandler` in main.go. -/
def echoLoopMain : List (Nat × String × Option JObj) → List (Nat × String)
  | [] => []
  | (mt, msg, parsed) :: rest =>
    match (echoStepMain mt msg parsed).action with
    | .stop => []
    | .echo m s => (m, s) :: echoLoopMain rest

/- ----------------------------------------------------------------- -/
/- The JSON-line logger (src/cmd/test-server/main.go, main)          -/
/- ----------------------------------------------------------------- -/

/-- Go's `os.O_WRONLY` flag value (Linux). -/
def O_WRONLY : Nat := 1

/-- Go's `os.O_CREATE` flag value (Linux). -/
def O_CREATE : Nat := 64

/-- Go's `os.O_TRUNC` flag value (Linux). -/
def O_TRUNC : Nat := 512

/-- Go's `os.O_APPEND` flag value (Linux). -/
def O_APPEND : Nat := 1024

/-- The flags `main` passes to `os.OpenFile` for both log files (main.go
lines 226 and 230): `os.O_APPEND|os.O_CREATE|os.O_WRONLY`. -/
def logFileFlags : Nat := O_APPEND ||| O_CREATE ||| O_WRONLY

/-- POSIX write semantics as a function of the open flags: with `O_APPEND`
every write lands at the end of the file; without it a write lands at the
current offset (0 right after open), overwriting in place. -/
def fileWrite (flags : Nat) (content chunk : String) : String :=
  if flags &&& O_APPEND ≠ 0 then content ++ chunk
  else chunk ++ String.mk (content.data.drop chunk.data.length)

/-- One output line of `InfoLogger := log.New(file, "", 0)` (main.go line
235): flag 0 and empty prefix mean `Println` writes exactly the record
followed by a newline. -/
def infoLogLine (record : String) : String := record ++ "\n"

/-- Logging one record: the `InfoLogger.Println(resultString)` calls of the
handlers (main.go lines 109 and 216) write one line through the log file
opened by `main`. -/
def logRecord (content record : String) : String :=
  fileWrite logFileFlags content (infoLogLine record)

/-- Number of newline characters in a string (so "one JSON object per
line" is `newlineCount` growing by exactly 1 per record). -/
def newlineCount (s : String) : Nat := s.data.count '\n'

/- ----------------------------------------------------------------- -/
/- The 0trace engine, modelled from the spec (sections 3, 4.3, 7)    -/
/- ----------------------------------------------------------------- -/

/-- Modelled from the spec: the status of a `HopResult` (section 3). -/
inductive HopStatus where
  | answered
  | timeout
  | unreachable
deriving DecidableEq, Repr

/-- Modelled from the spec: `HopResult` = \x7bttl, responderIP (optional),
rtt (optional non-negative duration), status\x7d (section 3); addresses are
abstracted to naturals, durations to milliseconds. -/
structure HopResult where
  ttl : Nat
  responderIP : Option Nat
  rttMs : Option Nat
  status : HopStatus
deriving DecidableEq, Repr

/-- Modelled from the spec: what the network does with the probe for one
TTL, as seen by the session at its `AwaitingResponse(ttl)` suspend point —
a matched reply (Time-Exceeded, or Destination-Unreachable when
`isUnreachable`), the per-hop timeout elapsing, or the traced connection
being found closed (section 4.2 failure, section 4.3 `Aborted`).  The
network conditions of one run are a function from TTL to such an event. -/
inductive NetEvent where
  | reply (ip : Nat) (rttMs : Nat) (isUnreachable : Bool)
  | noReply
  | connClosed
deriving DecidableEq, Repr

/-- Modelled from the spec: the `HopResult` recorded for a TTL from the
network's event — `answered`/`unreachable` carry the responder and the
RTT, a timeout records status `timeout` with no responder (section 4.3:
"a HopResult with status=timeout is still appended"); no hop is recorded
when the connection is closed. -/
def hopOf (ttl : Nat) : NetEvent → Option HopResult
  | .reply ip rtt u =>
    some ⟨ttl, some ip, some rtt, if u then .unreachable else .answered⟩
  | .noReply => some ⟨ttl, none, none, .timeout⟩
  | .connClosed => none

/-- Modelled from the spec: one probe sent by the Packet Crafter/Sender —
its TTL and its token (section 3). -/
structure Probe where
  ttl : Nat
  token : Nat
deriving DecidableEq, Repr

/-- Modelled from the spec: how a session ends — `completed` (destination
reached or hop ceiling hit) or `connectionClosed` (the `Aborted` state,
reported as a ConnectionClosedError), each carrying the hop list collected
so far (sections 4.3 and 7). -/
inductive RunOutcome where
  | completed (hops : List HopResult)
  | connectionClosed (hops : List HopResult)
deriving DecidableEq, Repr

/-- Hop list of an outcome. -/
def RunOutcome.hops : RunOutcome → List HopResult
  | .completed hs => hs
  | .connectionClosed hs => hs

/-- Whether the outcome is the `Completed` state. -/
def RunOutcome.isCompleted : RunOutcome → Bool
  | .completed _ => true
  | .connectionClosed _ => false

/-- Prepend an already-recorded hop to an outcome's hop list. -/
def RunOutcome.consHop (h : HopResult) : RunOutcome → RunOutcome
  | .completed hs => .completed (h :: hs)
  | .connectionClosed hs => .connectionClosed (h :: hs)

/-- Modelled from the spec: the TTL sweep of the Probing State Machine
(section 4.3) from `ttl` with `fuel` probes left before the configured
maximum hop count is exceeded.  Each round sends one probe (TTL and a
token drawn from the token stream `tok`), then: on connection closure the
session aborts with the hops collected so far; otherwise the hop is
appended, and the session completes if the responder IP equals the target
IP, completes with a partial path once the ceiling is reached, and
otherwise continues with `ttl + 1`.  Returns the probes issued and the
outcome. -/
def runFromT (targetIP : Nat) (tok : Nat → Nat) (env : Nat → NetEvent) :
    Nat → Nat → List Probe × RunOutcome
  | _, 0 => ([], .completed [])
  | ttl, fuel + 1 =>
    let p : Probe := ⟨ttl, tok ttl⟩
    match hopOf ttl (env ttl) with
    | none => ([p], .connectionClosed [])
    | some hop =>
      if hop.responderIP = some targetIP then ([p], .completed [hop])
      else
        let r := runFromT targetIP tok env (ttl + 1) fuel
        (p :: r.1, r.2.consHop hop)

/-- Modelled from the spec: one whole session — the sweep starts at the
TTL floor 1 and may issue at most `maxHops` probes (section 4.3). -/
def runSessionT (targetIP maxHops : Nat) (tok : Nat → Nat)
    (env : Nat → NetEvent) : List Probe × RunOutcome :=
  runFromT targetIP tok env 1 maxHops

/-- Modelled from the spec: the error taxonomy entry a finished session
surfaces (section 7) — `Run` returns ConnectionClosedError exactly for an
aborted session. -/
inductive TraceError where
  | connectionClosed
deriving DecidableEq, Repr

/-- Modelled from the spec: what `Run` hands back to its caller — the hops
collected plus the error, `none` on completion and ConnectionClosedError
on abort (sections 4.4, 6 and 7). -/
def runReturn : RunOutcome → List HopResult × Option TraceError
  | .completed hs => (hs, none)
  | .connectionClosed hs => (hs, some .connectionClosed)

/-- Effects `traceHandler` can produce after `Run` returns. -/
inductive HandlerEffect where
  | logLine (tag : String)
  | httpError (code : Nat)
  | processCrash
deriving DecidableEq, Repr

/-- The error surfacing in `traceHandler` (part_000 lines 116-120): a
non-nil error from `zeroTraceInstance.Run()` is logged and answered with
`http.Error(..., 500)`; the process is never crashed. -/
def traceHandlerOnRunError : Option TraceError → List HandlerEffect
  | none => []
  | some .connectionClosed => [.logLine "ZeroTrace Run Error", .httpError 500]

/- ----------------------------------------------------------------- -/
/- The Probe Registry, modelled from the spec (sections 3, 5, 7)     -/
/- ----------------------------------------------------------------- -/

/-- Modelled from the spec: the operations any of the concurrently active
sessions, the Response Listener or the reaper may perform on the shared
Probe Registry — registering a probe's token, resolving it on a matched
reply, or evicting it on timeout (sections 3 and 5).  An execution is an
arbitrary interleaving, i.e. a list of such events. -/
inductive RegEvent where
  | register (token : Nat)
  | resolve (token : Nat)
  | evict (token : Nat)
deriving DecidableEq, Repr

/-- Modelled from the spec: the registry's reaction to one event, on the
set of pending tokens.  A registration whose token is already pending is
rejected (section 7, TokenCollisionError: "the later registration is
rejected"); resolve and evict remove the entry. -/
def regStep (pending : List Nat) : RegEvent → List Nat
  | .register t => if t ∈ pending then pending else t :: pending
  | .resolve t => pending.erase t
  | .evict t => pending.erase t

/-- Modelled from the spec: the pending-token set after an execution,
starting from the empty registry at startup. -/
def regRun (evs : List RegEvent) : List Nat :=
  evs.foldl regStep []

/- ----------------------------------------------------------------- -/
/- Helper lemmas                                                     -/
/- ----------------------------------------------------------------- -/

/-- Folding `min` never goes above the accumulator. -/
theorem foldl_min_le_init (t : List Nat) : ∀ h : Nat, t.foldl min h ≤ h := by
  induction t with
  | nil => intro h; exact Nat.le_refl h
  | cons b t ih =>
    intro h
    rw [List.foldl_cons]
    exact Nat.le_trans (ih (min h b)) (Nat.min_le_left h b)

/-- Folding `min` never goes above any list member. -/
theorem foldl_min_le_mem (t : List Nat) :
    ∀ h a : Nat, a ∈ t → t.foldl min h ≤ a := by
  induction t with
  | nil => intro h a ha; exact absurd ha (List.not_mem_nil a)
  | cons b t ih =>
    intro h a ha
    rw [List.foldl_cons]
    rcases List.mem_cons.mp ha with rfl | hmem
    · exact Nat.le_trans (foldl_min_le_init t (min h a)) (Nat.min_le_right h a)
    · exact ih (min h b) a hmem

/-- A sample containing 0 has minimum 0. -/
theorem getStatsMin_eq_zero (l : List Nat) (h0 : 0 ∈ l) : getStatsMin l = 0 := by
  cases l with
  | nil => rfl
  | cons b t =>
    show t.foldl min b = 0
    rcases List.mem_cons.mp h0 with hb | hmem
    · rw [← hb]
      exact Nat.le_zero.mp (foldl_min_le_init t 0)
    · exact Nat.le_zero.mp (foldl_min_le_mem t b 0 hmem)

/- ----------------------------------------------------------------- -/
/- Claim theorems: the handler layer and the test server             -/
/- ----------------------------------------------------------------- -/

/-- C1: the claim says that whenever `traceHandler` reaches the
`newZeroTrace` call, the uuid passed as the session identifier has been
validated by `isValidUUID`.  The code violates this: on a GET /trace
request that upgrades successfully but carries an empty query string, the
validation loop body never runs, and the never-validated initial value
`""` — which `isValidUUID` rejects — reaches `newZeroTrace`. -/
theorem traceHandler_empty_query_skips_validation :
    traceHandler "/trace" "GET" [] true = .runTrace "" ∧
      isValidUUID "" = false := by
  exact ⟨rfl, rfl⟩

/-- C8: a TCP probe whose dial fails with an error not containing
"connection refused" makes `pingTcp` return 0, and `pingHandler` appends
that 0 to the port's `TimesInms` sample, so the per-port statistics — in
particular `MinRtt` — are computed over a sample containing the 0. -/
theorem tcpPing_failed_probe_contributes_zero (dst : String) (seq0 : Nat)
    (dialErr : Nat → Option String) (elapsed : Nat → Nat) (i : Nat)
    (e : String) (hi : i < TCPCounter) (he : dialErr i = some e)
    (hr : goContains e "connection refused" = false) :
    (pingTcp dst (seq0 + i + 1) (dialErr i) (elapsed i)).ret = 0 ∧
    0 ∈ (mkTcpResult dst seq0 dialErr elapsed).TimesInms ∧
    (mkTcpResult dst seq0 dialErr elapsed).MinRtt = 0 := by
  have hret : (pingTcp dst (seq0 + i + 1) (dialErr i) (elapsed i)).ret = 0 := by
    simp [pingTcp, he, hr]
  have hmem : 0 ∈ tcpSample dst seq0 dialErr elapsed := by
    unfold tcpSample
    exact List.mem_map.mpr ⟨i, List.mem_range.mpr hi, hret⟩
  refine ⟨hret, ?_, ?_⟩
  · simpa [mkTcpResult] using hmem
  · simpa [mkTcpResult] using getStatsMin_eq_zero _ hmem

/-- C8 witness: with probe 2 of 5 failing with "i/o timeout", the sample
contains a 0 and the computed `MinRtt` is 0. -/
theorem tcpPing_failed_probe_contributes_zero_witness :
    (pingTcp "10.0.0.9:80" 3 ((fun x =>
        if x = 2 then some "i/o timeout" else none) 2) ((fun x => 30 + x) 2)).ret = 0 ∧
    0 ∈ (mkTcpResult "10.0.0.9:80" 0 (fun x =>
        if x = 2 then some "i/o timeout" else none) (fun x => 30 + x)).TimesInms ∧
    (mkTcpResult "10.0.0.9:80" 0 (fun x =>
        if x = 2 then some "i/o timeout" else none) (fun x => 30 + x)).MinRtt = 0 :=
  tcpPing_failed_probe_contributes_zero "10.0.0.9:80" 0
    (fun x => if x = 2 then some "i/o timeout" else none) (fun x => 30 + x)
    2 "i/o timeout" (by decide) (by decide) (by decide)

/-- C9: a dial error whose message contains "connection refused" is
treated by `pingTcp` exactly like a successful measurement: it returns the
elapsed dial time and logs the same `tcpProbeResult` record as the
no-error case, rather than returning 0; only in the no-error case is the
connection closed. -/
theorem pingTcp_refused_treated_as_success (dst : String)
    (seq elapsed : Nat) (e : String)
    (h : goContains e "connection refused" = true) :
    pingTcp dst seq (some e) elapsed =
      ⟨elapsed, [.probeResult dst seq elapsed], false⟩ ∧
    pingTcp dst seq none elapsed =
      ⟨elapsed, [.probeResult dst seq elapsed], true⟩ := by
  constructor
  · simp [pingTcp, h]
  · rfl

/-- C9 witness: a concrete refused dial measures like a success. -/
theorem pingTcp_refused_treated_as_success_witness :
    pingTcp "127.0.0.1:53" 7 (some "connect: connection refused") 42 =
      ⟨42, [.probeResult "127.0.0.1:53" 7 42], false⟩ ∧
    pingTcp "127.0.0.1:53" 7 none 42 =
      ⟨42, [.probeResult "127.0.0.1:53" 7 42], true⟩ :=
  pingTcp_refused_treated_as_success "127.0.0.1:53" 7 42
    "connect: connection refused" (by decide)

/-- C10: on a stream of messages whose payloads all parse as JSON objects,
both echo handlers write back each message with byte-identical payload and
the same WebSocket message type, each echo happening before the next read
(the loops echo the whole stream in order). -/
theorem echoHandlers_identity_on_json_objects
    (msgs : List (Nat × String × Option JObj))
    (hp : ∀ m ∈ msgs, (m.2.2).isSome = true) :
    echoLoopTrace msgs = msgs.map (fun m => (m.1, m.2.1)) ∧
    echoLoopMain msgs = msgs.map (fun m => (m.1, m.2.1)) := by
  induction msgs with
  | nil => exact ⟨rfl, rfl⟩
  | cons m rest ih =>
    obtain ⟨mt, msg, parsed⟩ := m
    obtain ⟨obj, rfl⟩ :=
      Option.isSome_iff_exists.mp (hp _ (List.mem_cons_self _ _))
    have ih2 := ih fun x hx => hp x (List.mem_cons_of_mem _ hx)
    constructor
    · simp [echoLoopTrace, echoStepTrace, ih2.1]
    · simp [echoLoopMain, echoStepMain, ih2.2]

/-- C10 witness: a concrete two-message stream of JSON objects is echoed
unchanged by both handlers. -/
theorem echoHandlers_identity_on_json_objects_witness :
    echoLoopTrace [(1, "a", some [("type", JVal.str "x")]),
        (2, "b", some ([] : JObj))] =
      [(1, "a", some [("type", JVal.str "x")]),
        (2, "b", some ([] : JObj))].map (fun m => (m.1, m.2.1)) ∧
    echoLoopMain [(1, "a", some [("type", JVal.str "x")]),
        (2, "b", some ([] : JObj))] =
      [(1, "a", some [("type", JVal.str "x")]),
        (2, "b", some ([] : JObj))].map (fun m => (m.1, m.2.1)) :=
  echoHandlers_identity_on_json_objects
    [(1, "a", some [("type", JVal.str "x")]), (2, "b", some ([] : JObj))]
    (by decide)

/-- C7: each record logged through `InfoLogger` is written as exactly one
line holding just that record (flag 0, empty prefix, one trailing
newline), and the log file is opened with `O_APPEND` and without
`O_TRUNC`, so the write lands after the existing content — the old
content survives as an unchanged prefix and the newline count grows by
exactly one per record. -/
theorem logger_appends_one_json_line (content record : String)
    (h : '\n' ∉ record.data) :
    logRecord content record = content ++ (record ++ "\n") ∧
    newlineCount (logRecord content record) = newlineCount content + 1 ∧
    logFileFlags &&& O_APPEND = O_APPEND ∧
    logFileFlags &&& O_TRUNC = 0 := by
  have happ : logRecord content record = content ++ (record ++ "\n") := by
    simp [logRecord, fileWrite, infoLogLine, logFileFlags,
      O_APPEND, O_CREATE, O_WRONLY]
  have hrec : List.count '\n' record.data = 0 := List.count_eq_zero.mpr h
  have hnl : List.count '\n' "\n".data = 1 := by decide
  refine ⟨happ, ?_, by decide, by decide⟩
  rw [happ]
  simp [newlineCount, String.data_append, List.count_append, hrec, hnl]

/-- C7 witness: logging the record "r" onto existing content keeps the
content and adds one line. -/
theorem logger_appends_one_json_line_witness :
    logRecord "x\n" "r" = "x\n" ++ ("r" ++ "\n") ∧
    newlineCount (logRecord "x\n" "r") = newlineCount "x\n" + 1 ∧
    logFileFlags &&& O_APPEND = O_APPEND ∧
    logFileFlags &&& O_TRUNC = 0 :=
  logger_appends_one_json_line "x\n" "r" (by decide)

/-- Every registry step preserves distinctness of the pending tokens. -/
theorem regStep_nodup (pending : List Nat) (e : RegEvent)
    (h : pending.Nodup) : (regStep pending e).Nodup := by
  cases e with
  | register t =>
    simp only [regStep]
    split
    · exact h
    · exact List.nodup_cons.mpr ⟨by assumption, h⟩
  | resolve t => exact h.erase t
  | evict t => exact h.erase t

/-- Distinctness of the pending tokens is an inductive invariant of every
execution. -/
theorem foldl_regStep_nodup (evs : List RegEvent) :
    ∀ st : List Nat, st.Nodup → (evs.foldl regStep st).Nodup := by
  induction evs with
  | nil => intro st h; exact h
  | cons e rest ih => intro st h; exact ih _ (regStep_nodup st e h)

/-- C4: after any interleaving of register/resolve/evict events from the
concurrently active sessions, the Probe Registry holds at most one pending
entry per token, and registering a token that is still pending is rejected
(the registry is unchanged), so a token is never reused while pending. -/
theorem probeRegistry_unique_pending_tokens (evs : List RegEvent)
    (t : Nat) :
    (regRun evs).count t ≤ 1 ∧
    (t ∈ regRun evs →
      regStep (regRun evs) (.register t) = regRun evs) := by
  constructor
  · exact List.nodup_iff_count_le_one.mp
      (foldl_regStep_nodup evs [] List.nodup_nil) t
  · intro ht
    simp [regStep, ht]

/-- C4 witness: after a double registration of token 5, the registry holds
one entry for it and a further registration changes nothing. -/
theorem probeRegistry_unique_pending_tokens_witness :
    (regRun [RegEvent.register 5, RegEvent.register 5]).count 5 ≤ 1 ∧
    regStep (regRun [RegEvent.register 5, RegEvent.register 5])
        (.register 5) =
      regRun [RegEvent.register 5, RegEvent.register 5] :=
  ⟨(probeRegistry_unique_pending_tokens
      [RegEvent.register 5, RegEvent.register 5] 5).1,
   (probeRegistry_unique_pending_tokens
      [RegEvent.register 5, RegEvent.register 5] 5).2 (by decide)⟩

/- ----------------------------------------------------------------- -/
/- Claim theorems: the modelled 0trace session machine               -/
/- ----------------------------------------------------------------- -/

@[simp]
theorem RunOutcome.hops_completed (hs : List HopResult) :
    (RunOutcome.completed hs).hops = hs := rfl

@[simp]
theorem RunOutcome.hops_connectionClosed (hs : List HopResult) :
    (RunOutcome.connectionClosed hs).hops = hs := rfl

@[simp]
theorem RunOutcome.isCompleted_completed (hs : List HopResult) :
    (RunOutcome.completed hs).isCompleted = true := rfl

@[simp]
theorem RunOutcome.isCompleted_connectionClosed (hs : List HopResult) :
    (RunOutcome.connectionClosed hs).isCompleted = false := rfl

@[simp]
theorem RunOutcome.consHop_hops (h : HopResult) (r : RunOutcome) :
    (r.consHop h).hops = h :: r.hops := by
  cases r <;> rfl

@[simp]
theorem RunOutcome.consHop_isCompleted (h : HopResult) (r : RunOutcome) :
    (r.consHop h).isCompleted = r.isCompleted := by
  cases r <;> rfl

/-- Hops of a sweep started at `ttl` carry the TTLs `ttl, ttl+1, ...`
contiguously. -/
theorem runFromT_hops_ttls (targetIP : Nat) (tok : Nat → Nat)
    (env : Nat → NetEvent) :
    ∀ fuel ttl,
      ((runFromT targetIP tok env ttl fuel).2.hops).map HopResult.ttl =
        List.range' ttl ((runFromT targetIP tok env ttl fuel).2.hops).length := by
  intro fuel
  induction fuel with
  | zero => intro ttl; rfl
  | succ n ih =>
    intro ttl
    cases hEnv : env ttl with
    | connClosed =>
      simp [runFromT, hopOf, hEnv]
    | noReply =>
      have h := ih (ttl + 1)
      simp [runFromT, hopOf, hEnv, h, List.range'_succ]
    | reply ip rtt u =>
      by_cases hipt : ip = targetIP
      · subst hipt
        simp [runFromT, hopOf, hEnv]
      · have h := ih (ttl + 1)
        simp [runFromT, hopOf, hEnv, hipt, h, List.range'_succ]

/-- C2: (spec-modelled engine) every session that reaches `Completed` has
recorded hop TTLs exactly `1, 2, ..., final_ttl` in order — no gaps, no
repeats, and hence at most one `HopResult` per TTL. -/
theorem completed_session_ttls_exactly_one_to_final (targetIP maxHops : Nat)
    (tok : Nat → Nat) (env : Nat → NetEvent) (hops : List HopResult)
    (hc : (runSessionT targetIP maxHops tok env).2 = .completed hops) :
    hops.map HopResult.ttl = List.range' 1 hops.length ∧
    (hops.map HopResult.ttl).Nodup := by
  have h := runFromT_hops_ttls targetIP tok env maxHops 1
  unfold runSessionT at hc
  rw [hc] at h
  simp only [RunOutcome.hops_completed] at h
  refine ⟨h, ?_⟩
  rw [h]
  exact List.nodup_range' _ _

/-- C2 witness: a session completing at hop 3 records TTLs `[1, 2, 3]`. -/
theorem completed_session_ttls_exactly_one_to_final_witness :
    ([⟨1, some 101, some 10, .answered⟩, ⟨2, some 102, some 20, .answered⟩,
        ⟨3, some 9, some 60, .answered⟩] : List HopResult).map HopResult.ttl =
      List.range' 1 ([⟨1, some 101, some 10, .answered⟩,
        ⟨2, some 102, some 20, .answered⟩,
        ⟨3, some 9, some 60, .answered⟩] : List HopResult).length ∧
    (([⟨1, some 101, some 10, .answered⟩, ⟨2, some 102, some 20, .answered⟩,
        ⟨3, some 9, some 60, .answered⟩] : List HopResult).map
      HopResult.ttl).Nodup :=
  completed_session_ttls_exactly_one_to_final 9 5 (fun _ => 0)
    (fun t => if t = 3 then .reply 9 60 false
      else .reply (100 + t) (10 * t) false)
    [⟨1, some 101, some 10, .answered⟩, ⟨2, some 102, some 20, .answered⟩,
      ⟨3, some 9, some 60, .answered⟩]
    (by decide)

/-- A hop answered by the target IP is the last hop of the sweep, the
sweep completes, and no probe with a higher TTL is issued. -/
theorem runFromT_target_hop_last (targetIP : Nat) (tok : Nat → Nat)
    (env : Nat → NetEvent) :
    ∀ fuel ttl h, h ∈ (runFromT targetIP tok env ttl fuel).2.hops →
      h.responderIP = some targetIP →
      (runFromT targetIP tok env ttl fuel).2.hops.getLast? = some h ∧
      (runFromT targetIP tok env ttl fuel).2.isCompleted = true ∧
      ∀ p ∈ (runFromT targetIP tok env ttl fuel).1, p.ttl ≤ h.ttl := by
  intro fuel
  induction fuel with
  | zero =>
    intro ttl h hmem
    exact absurd hmem (by simp [runFromT])
  | succ n ih =>
    intro ttl h hmem hip
    cases hEnv : env ttl with
    | connClosed =>
      rw [show (runFromT targetIP tok env ttl (n + 1)).2.hops = [] by
        simp [runFromT, hopOf, hEnv]] at hmem
      exact absurd hmem (List.not_mem_nil h)
    | reply ip rtt u =>
      by_cases hipt : ip = targetIP
      · subst hipt
        simp only [runFromT, hopOf, hEnv] at hmem ⊢
        rw [if_pos trivial] at hmem ⊢
        simp only [RunOutcome.hops_completed, List.mem_singleton] at hmem
        subst hmem
        refine ⟨rfl, rfl, ?_⟩
        intro p hp
        simp only [List.mem_singleton] at hp
        subst hp
        exact Nat.le_refl _
      · have hcond : ¬((⟨ttl, some ip, some rtt,
            if u then .unreachable else .answered⟩ : HopResult).responderIP
              = some targetIP) := by
          simp [hipt]
        simp only [runFromT, hopOf, hEnv] at hmem ⊢
        rw [if_neg hcond] at hmem ⊢
        simp only [RunOutcome.consHop_hops, List.mem_cons] at hmem
        have hmem' : h ∈ (runFromT targetIP tok env (ttl + 1) n).2.hops := by
          rcases hmem with rfl | hm
          · exact absurd hip hcond
          · exact hm
        obtain ⟨hlast, hcomp, hprob⟩ := ih (ttl + 1) h hmem' hip
        have httl : ttl + 1 ≤ h.ttl := by
          have hm2 : HopResult.ttl h ∈
              ((runFromT targetIP tok env (ttl + 1) n).2.hops).map
                HopResult.ttl :=
            List.mem_map_of_mem HopResult.ttl hmem'
          rw [runFromT_hops_ttls targetIP tok env n (ttl + 1)] at hm2
          exact (List.mem_range'_1.mp hm2).1
        refine ⟨?_, ?_, ?_⟩
        · cases hl : (runFromT targetIP tok env (ttl + 1) n).2.hops with
          | nil => rw [hl] at hmem'; exact absurd hmem' (List.not_mem_nil h)
          | cons b bs =>
            simp only [RunOutcome.consHop_hops, hl, List.getLast?_cons_cons]
            rw [hl] at hlast
            exact hlast
        · simp only [RunOutcome.consHop_isCompleted]
          exact hcomp
        · intro p hp
          simp only [List.mem_cons] at hp
          rcases hp with rfl | hp2
          · exact Nat.le_of_succ_le httl
          · exact hprob p hp2
    | noReply =>
      have hcond : ¬((⟨ttl, none, none, .timeout⟩ : HopResult).responderIP
          = some targetIP) := by simp
      simp only [runFromT, hopOf, hEnv] at hmem ⊢
      rw [if_neg hcond] at hmem ⊢
      simp only [RunOutcome.consHop_hops, List.mem_cons] at hmem
      have hmem' : h ∈ (runFromT targetIP tok env (ttl + 1) n).2.hops := by
        rcases hmem with rfl | hm
        · exact absurd hip hcond
        · exact hm
      obtain ⟨hlast, hcomp, hprob⟩ := ih (ttl + 1) h hmem' hip
      have httl : ttl + 1 ≤ h.ttl := by
        have hm2 : HopResult.ttl h ∈
            ((runFromT targetIP tok env (ttl + 1) n).2.hops).map
              HopResult.ttl :=
          List.mem_map_of_mem HopResult.ttl hmem'
        rw [runFromT_hops_ttls targetIP tok env n (ttl + 1)] at hm2
        exact (List.mem_range'_1.mp hm2).1
      refine ⟨?_, ?_, ?_⟩
      · cases hl : (runFromT targetIP tok env (ttl + 1) n).2.hops with
        | nil => rw [hl] at hmem'; exact absurd hmem' (List.not_mem_nil h)
        | cons b bs =>
          simp only [RunOutcome.consHop_hops, hl, List.getLast?_cons_cons]
          rw [hl] at hlast
          exact hlast
      · simp only [RunOutcome.consHop_isCompleted]
        exact hcomp
      · intro p hp
        simp only [List.mem_cons] at hp
        rcases hp with rfl | hp2
        · exact Nat.le_of_succ_le httl
        · exact hprob p hp2

/-- C3: (spec-modelled engine) if a recorded hop's responder IP equals the
session's target IP, that hop is the last of the session's hop sequence,
the session is in `Completed`, and no probe with a higher TTL was
issued. -/
theorem destination_hop_terminates_session (targetIP maxHops : Nat)
    (tok : Nat → Nat) (env : Nat → NetEvent) (h : HopResult)
    (hmem : h ∈ (runSessionT targetIP maxHops tok env).2.hops)
    (hip : h.responderIP = some targetIP) :
    (runSessionT targetIP maxHops tok env).2.hops.getLast? = some h ∧
    (runSessionT targetIP maxHops tok env).2.isCompleted = true ∧
    ∀ p ∈ (runSessionT targetIP maxHops tok env).1, p.ttl ≤ h.ttl :=
  runFromT_target_hop_last targetIP tok env maxHops 1 h hmem hip

/-- C3 witness: a session whose target answers at TTL 2 ends with that hop
and completes. -/
theorem destination_hop_terminates_session_witness :
    (runSessionT 9 4 (fun _ => 0)
        (fun t => if t = 2 then .reply 9 25 false
          else .reply (50 + t) (5 * t) false)).2.hops.getLast? =
      some ⟨2, some 9, some 25, .answered⟩ ∧
    (runSessionT 9 4 (fun _ => 0)
        (fun t => if t = 2 then .reply 9 25 false
          else .reply (50 + t) (5 * t) false)).2.isCompleted = true :=
  ⟨(destination_hop_terminates_session 9 4 (fun _ => 0)
      (fun t => if t = 2 then .reply 9 25 false
        else .reply (50 + t) (5 * t) false)
      ⟨2, some 9, some 25, .answered⟩ (by decide) (by decide)).1,
   (destination_hop_terminates_session 9 4 (fun _ => 0)
      (fun t => if t = 2 then .reply 9 25 false
        else .reply (50 + t) (5 * t) false)
      ⟨2, some 9, some 25, .answered⟩ (by decide) (by decide)).2.1⟩

/-- C5: (spec-modelled engine) a connection that is found closed at the
very first probe aborts the session with zero hops and a
ConnectionClosedError; in general an aborted session returns the hops
collected so far together with that error, and `traceHandler` surfaces it
as a logged 500 error response for the request, never as a process
failure. -/
theorem connection_closed_aborts_recoverably (targetIP maxHops : Nat)
    (tok : Nat → Nat) (env : Nat → NetEvent)
    (hm : 0 < maxHops) (hc : env 1 = .connClosed) :
    runReturn (runSessionT targetIP maxHops tok env).2 =
      ([], some .connectionClosed) ∧
    (∀ hops : List HopResult,
      runReturn (.connectionClosed hops) = (hops, some .connectionClosed)) ∧
    traceHandlerOnRunError (some .connectionClosed) =
      [.logLine "ZeroTrace Run Error", .httpError 500] ∧
    HandlerEffect.processCrash ∉
      traceHandlerOnRunError (some .connectionClosed) := by
  obtain ⟨n, rfl⟩ : ∃ n, maxHops = n + 1 := ⟨maxHops - 1, by omega⟩
  refine ⟨?_, fun hops => rfl, rfl, by decide⟩
  simp [runSessionT, runFromT, hc, hopOf, runReturn]

/-- C5 witness: with the connection closed from the start and one probe
allowed, the session returns zero hops and the ConnectionClosedError, and
the handler answers with a logged 500. -/
theorem connection_closed_aborts_recoverably_witness :
    runReturn (runSessionT 0 1 (fun _ => 0) (fun _ => .connClosed)).2 =
      ([], some .connectionClosed) ∧
    traceHandlerOnRunError (some .connectionClosed) =
      [.logLine "ZeroTrace Run Error", .httpError 500] ∧
    HandlerEffect.processCrash ∉
      traceHandlerOnRunError (some .connectionClosed) :=
  ⟨(connection_closed_aborts_recoverably 0 1 (fun _ => 0)
      (fun _ => .connClosed) (by decide) rfl).1,
   (connection_closed_aborts_recoverably 0 1 (fun _ => 0)
      (fun _ => .connClosed) (by decide) rfl).2.2.1,
   (connection_closed_aborts_recoverably 0 1 (fun _ => 0)
      (fun _ => .connClosed) (by decide) rfl).2.2.2⟩

/-- The outcome and the probed TTLs of a sweep do not depend on the token
stream. -/
theorem runFromT_tokens_irrelevant (targetIP : Nat) (tok1 tok2 : Nat → Nat)
    (env : Nat → NetEvent) :
    ∀ fuel ttl,
      (runFromT targetIP tok1 env ttl fuel).2 =
        (runFromT targetIP tok2 env ttl fuel).2 ∧
      (runFromT targetIP tok1 env ttl fuel).1.map Probe.ttl =
        (runFromT targetIP tok2 env ttl fuel).1.map Probe.ttl := by
  intro fuel
  induction fuel with
  | zero => intro ttl; exact ⟨rfl, rfl⟩
  | succ n ih =>
    intro ttl
    cases hEnv : env ttl with
    | connClosed => simp [runFromT, hopOf, hEnv]
    | noReply =>
      have h := ih (ttl + 1)
      simp [runFromT, hopOf, hEnv, h.1, h.2]
    | reply ip rtt u =>
      by_cases hipt : ip = targetIP
      · subst hipt
        simp [runFromT, hopOf, hEnv]
      · have h := ih (ttl + 1)
        simp [runFromT, hopOf, hEnv, hipt, h.1, h.2]

/-- C6: (spec-modelled engine) two runs of the same session on independent
connections under identical simulated network conditions — the same
responder/RTT/timeout behaviour per TTL, while the per-connection token
streams may differ arbitrarily — produce identical outcomes: the hop
sequences agree in length and, hop by hop, in TTL, responder IP, RTT and
status, and the same TTLs are probed. -/
theorem trace_idempotent_across_token_streams (targetIP maxHops : Nat)
    (tok1 tok2 : Nat → Nat) (env : Nat → NetEvent) :
    (runSessionT targetIP maxHops tok1 env).2 =
      (runSessionT targetIP maxHops tok2 env).2 ∧
    (runSessionT targetIP maxHops tok1 env).2.hops =
      (runSessionT targetIP maxHops tok2 env).2.hops ∧
    (runSessionT targetIP maxHops tok1 env).1.map Probe.ttl =
      (runSessionT targetIP maxHops tok2 env).1.map Probe.ttl := by
  obtain ⟨h1, h2⟩ :=
    runFromT_tokens_irrelevant targetIP tok1 tok2 env maxHops 1
  exact ⟨h1, by unfold runSessionT; rw [h1], h2⟩
